import Mathlib

/-
Verification development for the streammind content indexing and
similarity-retrieval core, a shallow embedding of
app/services/embedding_service.py (EmbeddingService) and
app/services/vector_search.py (VectorSearchEngine).

Modelling conventions:
- Vectors are lists of rationals. The source computes float cosine
  similarity dot/(norm1*norm2); the float value is represented exactly by
  its signed square (sign(cos) * cos^2), a strictly increasing encoding of
  the real value that avoids irrational square roots and keeps every
  comparison decidable. The float NaN produced by the 0.0/0.0 division
  (numpy emits a RuntimeWarning, not an exception, so the except branch
  is not taken) is an explicit constructor.
- The embedding backend (model.encode when a sentence-transformers model
  is loaded, _generate_mock_embedding otherwise) is in either case a
  deterministic function of the input text under a fixed configuration;
  it is abstracted as a parameter backend : String -> List rationals.
  Python hash, used as the cache key in generate_embedding, is abstracted
  as a parameter pyHash : String -> Int.
- Redis state is explicit: the content_ids set is a list in its iteration
  order (smembers order is unspecified, so theorems quantify over it),
  and content:{id} hashes are a partial map from id to stored record.
- The stored embedding field goes through json.dumps / json.loads; a
  value written by index_content always parses back, and an arbitrary
  store state may also hold an unparsable field, modelled by the
  malformed constructor.
- The SearchResult distance field (always 1 - score) and the metadata
  field are derived or inert payload no claim refers to; they are not
  carried in the model record.
-/

/-- Score of a candidate as computed by EmbeddingService.cosine_similarity.
The float value c is encoded as val (sign c * c^2); nan models the float
NaN result of dividing by a zero norm product. -/
inductive SimScore where
  | nan : SimScore
  | val : ℚ → SimScore
deriving DecidableEq, Repr

/-- Sum of squares of the entries, the square of the numpy L2 norm. -/
def sumsq (v : List ℚ) : ℚ := (v.map (fun x => x * x)).sum

/-- Dot product of two equal-length vectors, as np.dot. -/
def dotp (a b : List ℚ) : ℚ := (List.zipWith (fun x y => x * y) a b).sum

/-- EmbeddingService.cosine_similarity. np.dot raises on mismatched
lengths and the except branch returns 0.0; a zero norm product makes the
float division 0.0/0.0, which is NaN (a warning, not an exception);
otherwise the value is dot/(norm1*norm2), encoded by its signed square. -/
def cosineSim (v1 v2 : List ℚ) : SimScore :=
  if v1.length ≠ v2.length then SimScore.val 0
  else
    let s1 := sumsq v1
    let s2 := sumsq v2
    let d := dotp v1 v2
    if s1 * s2 = 0 then SimScore.nan
    else if d < 0 then SimScore.val (-(d * d) / (s1 * s2))
    else SimScore.val ((d * d) / (s1 * s2))

/-- Python float comparison used by the sort key: NaN compares false both
ways; two proper values compare as the encoded reals, equivalently as
their signed squares. -/
def scoreLt (a b : SimScore) : Bool :=
  match a, b with
  | SimScore.nan, _ => false
  | _, SimScore.nan => false
  | SimScore.val x, SimScore.val y => decide (x < y)

/-- Real cosine value denoted by a score (interpretation of the signed
square encoding, for statements that speak about float magnitudes). The
NaN case is given an arbitrary value and never relied upon. -/
noncomputable def SimScore.cosVal : SimScore → ℝ
  | SimScore.nan => 0
  | SimScore.val s => if 0 ≤ s then Real.sqrt (s : ℝ) else -Real.sqrt ((-s : ℚ) : ℝ)

/-- Stored embedding field of a content:{id} redis hash: either a JSON
list of numbers or a string json.loads rejects. -/
inductive EmbJson where
  | malformed : EmbJson
  | vec : List ℚ → EmbJson
deriving DecidableEq, Repr

/-- Decoded content:{id} redis hash as written and read by the engine.
Tags are stored joined by commas, as in index_content. -/
structure StoredRecord where
  title : String
  content : String
  category : String
  tagsStr : String
  author : String
  createdAt : Int
  embedding : EmbJson
deriving DecidableEq, Repr

/-- State shared by EmbeddingService and VectorSearchEngine: the
content_ids set in its iteration order, the content:{id} hashes, and the
embedding cache keyed by the Python hash of the text. -/
structure EngineState where
  ids : List String
  store : String → Option StoredRecord
  cache : Int → Option (List ℚ)

/-- Deterministic environment of a fixed configuration: the Python hash
function and the embedding computation (real model or mock fallback). -/
structure Params where
  pyHash : String → Int
  backend : String → List ℚ

/-- State with nothing indexed and an empty cache. -/
def emptyState : EngineState :=
  { ids := [], store := fun _ => none, cache := fun _ => none }

/-- EmbeddingService.generate_embedding: look up the cache under
hash(text); on a hit return the cached vector unchanged, on a miss
compute, cache under that key, and return. -/
def genEmbedding (P : Params) (st : EngineState) (t : String) :
    List ℚ × EngineState :=
  match st.cache (P.pyHash t) with
  | some v => (v, st)
  | none =>
    let v := P.backend t
    (v, { st with cache := fun k => if k = P.pyHash t then some v else st.cache k })

/-- Caller-supplied fields of index_content. Absent title/content/
category/author default to the empty string via dict.get, so they are
plain strings here; created_at defaults to the current time. -/
structure ContentData where
  title : String
  content : String
  category : String
  tags : List String
  author : String
  createdAt : Option Int
  embedding : Option (List ℚ)
deriving DecidableEq, Repr

/-- VectorSearchEngine.index_content: when no embedding is supplied,
compute one from "title content" via the embedding service; store the
record under content:{id}, add the id to content_ids, and return True.
The except branch returning False is unreachable in the model because the
abstracted redis and embedder are total. -/
def indexContent (P : Params) (now : Int) (st : EngineState) (cid : String)
    (c : ContentData) : Bool × EngineState :=
  let ep :=
    match c.embedding with
    | some e => (e, st)
    | none => genEmbedding P st (c.title ++ " " ++ c.content)
  let r : StoredRecord :=
    { title := c.title, content := c.content, category := c.category,
      tagsStr := String.intercalate "," c.tags, author := c.author,
      createdAt := c.createdAt.getD now, embedding := EmbJson.vec ep.1 }
  let st1 := ep.2
  (true,
    { st1 with
      store := fun k => if k = cid then some r else st1.store k,
      ids := if cid ∈ st1.ids then st1.ids else st1.ids ++ [cid] })

/-- Search query parameters (SearchQuery dataclass). k is an Int because
the Python slice results[:k] is also defined for negative k. -/
structure SearchQuery where
  text : String
  vector : Option (List ℚ)
  k : Int
  categoryFilter : Option String

/-- Result item as built in the search loop (distance, always 1 - score,
and the echoed metadata are not carried). -/
structure SearchResult where
  id : String
  title : String
  content : String
  category : String
  tags : List String
  author : String
  score : SimScore
  createdAt : Int
deriving DecidableEq, Repr

/-- Python "tags".split(",") guarded by truthiness of the joined string. -/
def splitTags (s : String) : List String :=
  if s = "" then [] else s.splitOn ","

/-- Category filter test of the search loop: the candidate is dropped
when the filter is truthy (present and non-empty) and the stored category
differs from it. -/
def rejectedByFilter (filt : Option String) (cat : String) : Bool :=
  match filt with
  | none => false
  | some f => if f = "" then false else if cat = f then false else true

/-- One iteration of the search loop for a candidate id: skip when the
hash is missing, the embedding does not parse, or it parses to an empty
list; otherwise score it and apply the category filter. -/
def processCandidate (store : String → Option StoredRecord) (qv : List ℚ)
    (filt : Option String) (cid : String) : Option SearchResult :=
  match store cid with
  | none => none
  | some r =>
    match r.embedding with
    | EmbJson.malformed => none
    | EmbJson.vec e =>
      if e = [] then none
      else
        let sc := cosineSim qv e
        if rejectedByFilter filt r.category then none
        else
          some { id := cid, title := r.title, content := r.content,
                 category := r.category, tags := splitTags r.tagsStr,
                 author := r.author, score := sc, createdAt := r.createdAt }

/-- Insert into a descending-sorted list, after every element the new one
is not strictly greater than. Elements with equal scores therefore keep
their original relative order. -/
def insertDesc (x : SearchResult) : List SearchResult → List SearchResult
  | [] => [x]
  | y :: l =>
    if scoreLt x.score y.score then y :: insertDesc x l else x :: y :: l

/-- The stable descending sort results.sort(key=score, reverse=True).
CPython performs a stable sort; on comparable (non-NaN) keys any stable
descending sort computes this list. On NaN keys CPython output is
unspecified and the theorems below do not cover it. -/
def sortDesc : List SearchResult → List SearchResult
  | [] => []
  | x :: l => insertDesc x (sortDesc l)

/-- Python slice l[:k] for an arbitrary integer k. -/
def takeK (k : Int) (l : List SearchResult) : List SearchResult :=
  if 0 ≤ k then l.take k.toNat else l.take (l.length - (-k).toNat)

/-- Query vector resolution at the top of search: use the supplied
vector verbatim, otherwise derive one from the query text. -/
def queryVec (P : Params) (st : EngineState) (q : SearchQuery) : List ℚ :=
  match q.vector with
  | some v => v
  | none => (genEmbedding P st q.text).1

/-- State after query vector resolution (the only state change search
makes is the embedding cache write of a derived query vector). -/
def stateAfterQuery (P : Params) (st : EngineState) (q : SearchQuery) :
    EngineState :=
  match q.vector with
  | some _ => st
  | none => (genEmbedding P st q.text).2

/-- Scored candidate list of one search call, in content_ids iteration
order: the loop body is a filterMap over the candidate ids. -/
def scoredList (P : Params) (st : EngineState) (q : SearchQuery) :
    List SearchResult :=
  st.ids.filterMap (processCandidate st.store (queryVec P st q) q.categoryFilter)

/-- VectorSearchEngine.search: resolve the query vector, return [] when
content_ids is empty, otherwise score all candidates, sort by score
descending (stable), and return the slice results[:k]. -/
def search (P : Params) (st : EngineState) (q : SearchQuery) :
    List SearchResult × EngineState :=
  let st1 := stateAfterQuery P st q
  if st1.ids = [] then ([], st1)
  else (takeK q.k (sortDesc (scoredList P st q)), st1)

/-- Run a sequence of generate_embedding calls, threading the cache. -/
def runEmbeds (P : Params) (st : EngineState) : List String → EngineState
  | [] => st
  | t :: ts => runEmbeds P ((genEmbedding P st t).2) ts

/-- A candidate id the search loop skips regardless of the query: its
hash is missing, or its embedding field does not parse, or parses to an
empty list. -/
def badStored (store : String → Option StoredRecord) (cid : String) : Prop :=
  store cid = none ∨
    ∃ r, store cid = some r ∧
      (r.embedding = EmbJson.malformed ∨ r.embedding = EmbJson.vec [])

/-- Claim C4 as stated, over the unspecified Python hash and embedding
backend: starting from a fresh service, embedding some other text first
never changes what embed returns for a different text. The actual hash
is an unknown function into a finite 64-bit range, so it necessarily has
collisions, and the cache is keyed by it, not by the text. -/
def cacheKeyedByTextClaim : Prop :=
  ∀ (h : String → Int) (b : String → List ℚ) (t1 t2 : String),
    t1 ≠ t2 →
    (genEmbedding ⟨h, b⟩ ((genEmbedding ⟨h, b⟩ emptyState t2).2) t1).1 = b t1

/-- Environment with a constant Python hash (every function into the
finite hash range has collisions; this one collides everywhere) and a
text-length backend. -/
def hashZero : Params := ⟨fun _ => 0, fun t => [(t.length : ℚ)]⟩

/-- Environment whose hash is the text length, injective on the concrete
texts used by the witnesses below. -/
def hashLen : Params := ⟨fun s => (s.length : Int), fun t => [(t.length : ℚ)]⟩

/-- Concrete fixtures used by witnesses and counterexamples. -/
def recTechA : StoredRecord :=
  ⟨"T1", "C1", "tech", "", "a1", 0, EmbJson.vec [1]⟩

def recTechB : StoredRecord :=
  ⟨"T2", "C2", "tech", "", "a2", 0, EmbJson.vec [1]⟩

def recBadX : StoredRecord :=
  ⟨"T3", "C3", "tech", "", "a3", 0, EmbJson.malformed⟩

def storeTwoTech : String → Option StoredRecord := fun cid =>
  if cid = "A" then some recTechA
  else if cid = "B" then some recTechB
  else none

def storeWithBad : String → Option StoredRecord := fun cid =>
  if cid = "A" then some recTechA
  else if cid = "B" then some recTechB
  else if cid = "X" then some recBadX
  else none

def stTwoTech : EngineState := ⟨["A", "B"], storeTwoTech, fun _ => none⟩

def stBase : EngineState := ⟨[], storeWithBad, fun _ => none⟩

def qK5 : SearchQuery := ⟨"", some [1], 5, none⟩

def qKneg : SearchQuery := ⟨"", some [1], -1, none⟩

def qDesign : SearchQuery := ⟨"", some [1], 5, some "design"⟩

/-- Caller-supplied query vector of length 2, mismatching the stored
length-1 embeddings of stTwoTech: np.dot raises on this pair inside
cosine_similarity, whose own except branch returns 0.0. -/
def qMismatch : SearchQuery := ⟨"", some [1, 0], 5, none⟩

/-- Result items produced for stTwoTech under query vector [1]. -/
def resTieA : SearchResult := ⟨"A", "T1", "C1", "tech", [], "a1", SimScore.val 1, 0⟩

def resTieB : SearchResult := ⟨"B", "T2", "C2", "tech", [], "a2", SimScore.val 1, 0⟩

/-- Fixtures for the epsilon tie-break counterexample: query vector
[1, 0]; candidate A scores exactly 0, candidate B scores
1/10^9 / sqrt(1 + 10^-18), which is strictly between 0 and 10^-9. -/
def embA5 : List ℚ := [0, 1]

def embB5 : List ℚ := [1 / 1000000000, 1]

def recA5 : StoredRecord := ⟨"TA", "CA", "tech", "", "a1", 0, EmbJson.vec embA5⟩

def recB5 : StoredRecord := ⟨"TB", "CB", "tech", "", "a2", 0, EmbJson.vec embB5⟩

def storeC5 : String → Option StoredRecord := fun cid =>
  if cid = "A" then some recA5
  else if cid = "B" then some recB5
  else none

def stC5 : EngineState := ⟨["A", "B"], storeC5, fun _ => none⟩

def qC5 : SearchQuery := ⟨"", some [1, 0], 5, none⟩

/-- Content fields with no supplied embedding, for the indexing claims. -/
def cdNoEmb : ContentData :=
  ⟨"hello", "world", "tech", [], "me", some 0, none⟩

/-- Record index_content stores for cdNoEmb under the hashZero
environment: the embedding [11] is computed from "hello world". -/
def recHelloStored : StoredRecord :=
  ⟨"hello", "world", "tech", "", "me", 0, EmbJson.vec [11]⟩

theorem scoreLt_irrefl (s : SimScore) : scoreLt s s = false := by
  cases s with
  | nan => rfl
  | val q => simp [scoreLt]

theorem scoreLt_asymm {a b : SimScore} (h : scoreLt a b = true) :
    scoreLt b a = false := by
  cases a with
  | nan => simp [scoreLt] at h
  | val x =>
    cases b with
    | nan => simp [scoreLt] at h
    | val y =>
      simp [scoreLt] at h ⊢
      linarith

theorem scoreLt_false_trans {x y z : SimScore} (hx : x ≠ SimScore.nan)
    (hy : y ≠ SimScore.nan) (hz : z ≠ SimScore.nan)
    (h1 : scoreLt x y = false) (h2 : scoreLt y z = false) :
    scoreLt x z = false := by
  cases x <;> cases y <;> cases z <;> simp_all [scoreLt]
  linarith

theorem mem_insertDesc {x a : SearchResult} {l : List SearchResult} :
    a ∈ insertDesc x l ↔ a = x ∨ a ∈ l := by
  induction l with
  | nil => simp [insertDesc]
  | cons y l ih =>
    rw [insertDesc]
    split
    · simp only [List.mem_cons, ih]
      tauto
    · simp only [List.mem_cons]

theorem mem_sortDesc {a : SearchResult} {l : List SearchResult} :
    a ∈ sortDesc l ↔ a ∈ l := by
  induction l with
  | nil => simp [sortDesc]
  | cons y l ih =>
    rw [sortDesc, mem_insertDesc]
    simp [ih]

theorem sublist_insertDesc (x : SearchResult) (l : List SearchResult) :
    List.Sublist l (insertDesc x l) := by
  induction l with
  | nil => simp [insertDesc]
  | cons y l ih =>
    rw [insertDesc]
    split
    · exact List.Sublist.cons₂ y ih
    · exact List.Sublist.cons x (List.Sublist.refl _)

theorem length_insertDesc (x : SearchResult) (l : List SearchResult) :
    (insertDesc x l).length = l.length + 1 := by
  induction l with
  | nil => rfl
  | cons y l ih =>
    rw [insertDesc]
    split
    · simp [ih]
    · simp

theorem length_sortDesc (l : List SearchResult) :
    (sortDesc l).length = l.length := by
  induction l with
  | nil => rfl
  | cons y l ih =>
    rw [sortDesc, length_insertDesc, ih, List.length_cons]

theorem pairwise_insertDesc {x : SearchResult} {l : List SearchResult}
    (hl : l.Pairwise (fun a b => scoreLt a.score b.score = false))
    (hx : x.score ≠ SimScore.nan)
    (hmem : ∀ y ∈ l, y.score ≠ SimScore.nan) :
    (insertDesc x l).Pairwise (fun a b => scoreLt a.score b.score = false) := by
  induction l with
  | nil => simp [insertDesc]
  | cons y l ih =>
    rcases List.pairwise_cons.1 hl with ⟨hy, hl'⟩
    rw [insertDesc]
    split
    case isTrue h =>
      refine List.pairwise_cons.2 ⟨?_, ih hl' fun z hz => hmem z (List.mem_cons_of_mem _ hz)⟩
      intro z hz
      rcases mem_insertDesc.1 hz with rfl | hz'
      · exact scoreLt_asymm h
      · exact hy z hz'
    case isFalse h =>
      refine List.pairwise_cons.2 ⟨?_, hl⟩
      intro z hz
      rcases List.mem_cons.1 hz with rfl | hz'
      · exact Bool.eq_false_iff.mpr h
      · exact scoreLt_false_trans hx (hmem y (List.mem_cons_self _ _))
          (hmem z (List.mem_cons_of_mem _ hz')) (Bool.eq_false_iff.mpr h) (hy z hz')

theorem pairwise_sortDesc {l : List SearchResult}
    (h : ∀ y ∈ l, y.score ≠ SimScore.nan) :
    (sortDesc l).Pairwise (fun a b => scoreLt a.score b.score = false) := by
  induction l with
  | nil => simp [sortDesc]
  | cons x l ih =>
    rw [sortDesc]
    exact pairwise_insertDesc (ih fun y hy => h y (List.mem_cons_of_mem _ hy))
      (h x (List.mem_cons_self _ _))
      (fun y hy => h y (List.mem_cons_of_mem _ (mem_sortDesc.1 hy)))

theorem insertDesc_before {x y : SearchResult} {l : List SearchResult}
    (hy : y ∈ l) (hxy : scoreLt x.score y.score = false) :
    List.Sublist [x, y] (insertDesc x l) := by
  induction l with
  | nil => cases hy
  | cons z l ih =>
    rw [insertDesc]
    split
    case isTrue h =>
      rcases List.mem_cons.1 hy with rfl | hy'
      · rw [h] at hxy
        cases hxy
      · exact List.Sublist.cons z (ih hy')
    case isFalse h =>
      exact List.Sublist.cons₂ x (List.singleton_sublist.mpr hy)

theorem sortDesc_stable {x y : SearchResult} {l : List SearchResult}
    (h : List.Sublist [x, y] l) (hs : x.score = y.score) :
    List.Sublist [x, y] (sortDesc l) := by
  induction l with
  | nil => cases h
  | cons a l ih =>
    rw [sortDesc]
    cases h with
    | cons _ h' => exact (ih h').trans (sublist_insertDesc a _)
    | cons₂ _ h' =>
      have hy : y ∈ sortDesc l := mem_sortDesc.2 (List.singleton_sublist.1 h')
      have hxy : scoreLt x.score y.score = false := by
        rw [hs]
        exact scoreLt_irrefl _
      exact insertDesc_before hy hxy

theorem takeK_nil (k : Int) : takeK k [] = [] := by
  unfold takeK
  split <;> simp

theorem length_takeK (k : Int) (l : List SearchResult) :
    (takeK k l).length =
      if 0 ≤ k then min k.toNat l.length else l.length - (-k).toNat := by
  unfold takeK
  split <;> simp

theorem takeK_sublist (k : Int) (l : List SearchResult) :
    List.Sublist (takeK k l) l := by
  unfold takeK
  split <;> exact List.take_sublist _ _

theorem takeK_all {k : Int} {l : List SearchResult}
    (h : (l.length : Int) ≤ k) : takeK k l = l := by
  unfold takeK
  have h0 : 0 ≤ k := le_trans (by positivity) h
  rw [if_pos h0]
  apply List.take_of_length_le
  omega

theorem genEmbedding_ids (P : Params) (st : EngineState) (t : String) :
    (genEmbedding P st t).2.ids = st.ids := by
  rcases h : st.cache (P.pyHash t) with _ | v <;> simp [genEmbedding, h]

theorem genEmbedding_store (P : Params) (st : EngineState) (t : String) :
    (genEmbedding P st t).2.store = st.store := by
  rcases h : st.cache (P.pyHash t) with _ | v <;> simp [genEmbedding, h]

theorem genEmbedding_cache_after (P : Params) (st : EngineState) (t : String) :
    ((genEmbedding P st t).2).cache (P.pyHash t) = some ((genEmbedding P st t).1) := by
  rcases h : st.cache (P.pyHash t) with _ | v <;> simp [genEmbedding, h]

theorem genEmbedding_hit {P : Params} {st : EngineState} {t : String}
    {v : List ℚ} (h : st.cache (P.pyHash t) = some v) :
    genEmbedding P st t = (v, st) := by
  simp [genEmbedding, h]

theorem genEmbedding_cache_mono {P : Params} {st : EngineState} {k : Int}
    {v : List ℚ} (t : String) (h : st.cache k = some v) :
    ((genEmbedding P st t).2).cache k = some v := by
  rcases h2 : st.cache (P.pyHash t) with _ | w
  · simp only [genEmbedding, h2]
    by_cases hk : k = P.pyHash t
    · rw [hk, h2] at h
      cases h
    · simpa [hk] using h
  · simpa [genEmbedding, h2] using h

theorem runEmbeds_cache_mono (P : Params) {k : Int} {v : List ℚ} :
    ∀ (ts : List String) (st : EngineState), st.cache k = some v →
      (runEmbeds P st ts).cache k = some v
  | [], _, h => h
  | t :: ts, st, h =>
    runEmbeds_cache_mono P ts ((genEmbedding P st t).2) (genEmbedding_cache_mono t h)

theorem stateAfterQuery_ids (P : Params) (st : EngineState) (q : SearchQuery) :
    (stateAfterQuery P st q).ids = st.ids := by
  rcases h : q.vector with _ | v <;> simp [stateAfterQuery, h, genEmbedding_ids]

theorem stateAfterQuery_store (P : Params) (st : EngineState) (q : SearchQuery) :
    (stateAfterQuery P st q).store = st.store := by
  rcases h : q.vector with _ | v <;> simp [stateAfterQuery, h, genEmbedding_store]

theorem search_fst_eq (P : Params) (st : EngineState) (q : SearchQuery) :
    (search P st q).1 = takeK q.k (sortDesc (scoredList P st q)) := by
  simp only [search]
  split
  case isTrue h =>
    have hids : st.ids = [] := by rw [← stateAfterQuery_ids P st q]; exact h
    simp [scoredList, hids, sortDesc, takeK_nil]
  case isFalse h => rfl

theorem dotp_self (v : List ℚ) : dotp v v = sumsq v := by
  induction v with
  | nil => rfl
  | cons a l ih => simp [dotp, sumsq] at ih ⊢

theorem sumsq_nonneg (v : List ℚ) : 0 ≤ sumsq v := by
  induction v with
  | nil => simp [sumsq]
  | cons a l ih =>
    have ha := mul_self_nonneg a
    simp only [sumsq, List.map_cons, List.sum_cons] at ih ⊢
    linarith

theorem cosineSim_self {v : List ℚ} (h : sumsq v ≠ 0) :
    cosineSim v v = SimScore.val 1 := by
  have hnn := sumsq_nonneg v
  simp only [cosineSim, ne_eq, not_true_eq_false, if_false, dotp_self,
    mul_ne_zero h h, if_neg (not_lt.mpr hnn)]
  rw [div_self (mul_ne_zero h h)]

theorem processCandidate_of_bad {store : String → Option StoredRecord}
    {cid : String} (h : badStored store cid) (qv : List ℚ)
    (filt : Option String) : processCandidate store qv filt cid = none := by
  rcases h with h | ⟨r, hr, h2 | h2⟩
  · simp [processCandidate, h]
  · simp [processCandidate, hr, h2]
  · simp [processCandidate, hr, h2]

theorem rejectedByFilter_false_iff {f cat : String} (hf : f ≠ "") :
    rejectedByFilter (some f) cat = false ↔ cat = f := by
  simp only [rejectedByFilter, if_neg hf]
  by_cases h : cat = f <;> simp [h]

theorem processCandidate_some_category {store : String → Option StoredRecord}
    {qv : List ℚ} {f cid : String} {r : SearchResult} (hf : f ≠ "")
    (h : processCandidate store qv (some f) cid = some r) : r.category = f := by
  rcases h1 : store cid with _ | rec
  · simp [processCandidate, h1] at h
  · rcases h2 : rec.embedding with _ | e
    · simp [processCandidate, h1, h2] at h
    · by_cases he : e = []
      · simp [processCandidate, h1, h2, he] at h
      · by_cases hrej : rejectedByFilter (some f) rec.category = true
        · simp [processCandidate, h1, h2, he, hrej] at h
        · have hrej2 : rejectedByFilter (some f) rec.category = false :=
            Bool.eq_false_iff.mpr hrej
          have hcat : rec.category = f := (rejectedByFilter_false_iff hf).1 hrej2
          simp [processCandidate, h1, h2, he, hrej2] at h
          rw [← h]
          exact hcat

/-- Claim C1. For every pair of vectors, similarity returns their cosine
similarity and returns 0.0 (not an error and not NaN) whenever either
vector has zero norm. The code violates this: at the failing input
cosine_similarity([1.0], [0.0]) the numpy expression divides 0.0 by 0.0,
which yields NaN with a RuntimeWarning rather than an exception, so the
except branch returning 0.0 is never taken. This theorem evaluates the
model at that failing input. -/
theorem cosine_zero_norm_nan :
    cosineSim [(1 : ℚ)] [(0 : ℚ)] = SimScore.nan ∧
      SimScore.nan ≠ SimScore.val 0 := by
  constructor
  · norm_num [cosineSim, sumsq, dotp]
  · simp

/-- Claim C2, counterexample. The claim says a store attempt with an
absent embedding is rejected with an IncompleteRecord error and that the
store never computes the embedding itself. At this concrete input
index_content instead returns success and stores the record with an
embedding it computed itself from "title content". -/
theorem index_missing_embedding_not_rejected :
    cdNoEmb.embedding = none ∧
    (indexContent hashZero 0 emptyState "a" cdNoEmb).1 = true ∧
    (indexContent hashZero 0 emptyState "a" cdNoEmb).2.store "a" =
      some recHelloStored := by
  refine ⟨rfl, rfl, ?_⟩
  have h1 : "hello".length = 5 := rfl
  have h2 : " ".length = 1 := rfl
  have h3 : "world".length = 5 := rfl
  have h4 : String.intercalate "," ([] : List String) = "" := rfl
  norm_num [indexContent, genEmbedding, emptyState, hashZero, cdNoEmb,
    recHelloStored, h1, h2, h3, h4]

/-- Claim C2, amended. When the embedding is absent, index_content does
not reject the write: it computes the embedding from the concatenation of
title and content via the embedding service, stores the record with that
embedding, and returns success; a record is never stored without an
embedding field. -/
theorem index_missing_embedding_computes (P : Params) (now : Int)
    (st : EngineState) (cid : String) (c : ContentData)
    (hemb : c.embedding = none) :
    (indexContent P now st cid c).1 = true ∧
    (indexContent P now st cid c).2.store cid =
      some { title := c.title, content := c.content, category := c.category,
             tagsStr := String.intercalate "," c.tags, author := c.author,
             createdAt := c.createdAt.getD now,
             embedding :=
               EmbJson.vec (genEmbedding P st (c.title ++ " " ++ c.content)).1 } := by
  constructor
  · rfl
  · simp only [indexContent, hemb]
    simp

/-- Witness for index_missing_embedding_computes at a concrete input. -/
theorem index_missing_embedding_computes_witness :
    cdNoEmb.embedding = none ∧
    ((indexContent hashZero 0 emptyState "a" cdNoEmb).1 = true ∧
     (indexContent hashZero 0 emptyState "a" cdNoEmb).2.store "a" =
       some { title := cdNoEmb.title, content := cdNoEmb.content,
              category := cdNoEmb.category,
              tagsStr := String.intercalate "," cdNoEmb.tags,
              author := cdNoEmb.author, createdAt := cdNoEmb.createdAt.getD 0,
              embedding :=
                EmbJson.vec (genEmbedding hashZero emptyState
                  (cdNoEmb.title ++ " " ++ cdNoEmb.content)).1 }) :=
  ⟨rfl, index_missing_embedding_computes hashZero 0 emptyState "a" cdNoEmb rfl⟩

/-- Claim C8. Under a fixed configuration, two calls to
generate_embedding on the same text return identical vectors, regardless
of which other embeddings are computed in between and whether the second
call is served from the cache or not: the first call leaves the vector it
returned in the cache under hash(text), later calls never overwrite an
existing entry, and the second call returns the cached vector. -/
theorem embed_deterministic (P : Params) (st : EngineState) (t : String)
    (ts : List String) :
    (genEmbedding P (runEmbeds P ((genEmbedding P st t).2) ts) t).1 =
      (genEmbedding P st t).1 := by
  have h1 : ((genEmbedding P st t).2).cache (P.pyHash t) =
      some ((genEmbedding P st t).1) := genEmbedding_cache_after P st t
  have h2 := runEmbeds_cache_mono P ts ((genEmbedding P st t).2) h1
  rw [genEmbedding_hit h2]

/-- Claim C3, counterexample. The claim says every k at most 0 yields an
empty result. The code returns the Python slice results[:k]; at the
concrete input k = -1 with two indexed candidates the slice drops only
the last element and the result is nonempty. -/
theorem negative_k_claim_false :
    (-1 : Int) ≤ 0 ∧ (search hashZero stTwoTech qKneg).1 ≠ [] := by
  constructor
  · norm_num
  · have hl : (search hashZero stTwoTech qKneg).1.length = 1 := by
      rw [search_fst_eq]
      norm_num [scoredList, queryVec, processCandidate, takeK,
        sortDesc, insertDesc, cosineSim, sumsq, dotp, rejectedByFilter, splitTags,
        stTwoTech, storeTwoTech, recTechA, recTechB, qKneg, hashZero, scoreLt,
        List.filterMap_cons]
    intro h
    rw [h] at hl
    simp at hl

/-- Claim C3, amended. Search over an empty candidate set returns an
empty result, not an error; k = 0 returns an empty result but a negative
k follows Python slice semantics and drops the last -k results; when k is
at least the number of successfully scored candidates, all of them are
returned (in ranked order). The first conjunct gives the exact result
count for every k. -/
theorem search_result_count (P : Params) (st : EngineState) (q : SearchQuery) :
    ((search P st q).1.length =
      if 0 ≤ q.k then min q.k.toNat (scoredList P st q).length
      else (scoredList P st q).length - (-q.k).toNat) ∧
    (st.ids = [] → (search P st q).1 = []) ∧
    (((scoredList P st q).length : Int) ≤ q.k →
      (search P st q).1 = sortDesc (scoredList P st q)) := by
  refine ⟨?_, ?_, ?_⟩
  · rw [search_fst_eq, length_takeK, length_sortDesc]
  · intro h
    simp only [search]
    rw [if_pos (by rw [stateAfterQuery_ids]; exact h)]
  · intro h
    rw [search_fst_eq]
    exact takeK_all (by rw [length_sortDesc]; exact h)

/-- Witness for search_result_count on the empty state. -/
theorem search_result_count_witness :
    emptyState.ids = [] ∧
    ((scoredList hashZero emptyState qK5).length : Int) ≤ qK5.k ∧
    ((search hashZero emptyState qK5).1.length =
      if 0 ≤ qK5.k then min qK5.k.toNat (scoredList hashZero emptyState qK5).length
      else (scoredList hashZero emptyState qK5).length - (-qK5.k).toNat) ∧
    (search hashZero emptyState qK5).1 = [] ∧
    (search hashZero emptyState qK5).1 = sortDesc (scoredList hashZero emptyState qK5) := by
  obtain ⟨h1, h2, h3⟩ := search_result_count hashZero emptyState qK5
  have hs : ((scoredList hashZero emptyState qK5).length : Int) ≤ qK5.k := by
    have : scoredList hashZero emptyState qK5 = [] := rfl
    rw [this]
    norm_num [qK5]
  exact ⟨rfl, hs, h1, h2 rfl, h3 hs⟩

/-- Claim C4, counterexample. The claim states the embedding cache is
keyed by the exact input text, so embedding one text never affects what
embed returns for a different text. The code keys the cache by the
Python hash of the text, an unspecified function into a finite 64-bit
range, which therefore has colliding texts. Instantiating the hash
parameter with a colliding function (here constant zero) and the backend
with the text length refutes the claim as stated: after embed("bb"),
embed("a") returns the vector cached for "bb". -/
theorem cache_key_exact_text_claim_false : ¬ cacheKeyedByTextClaim := by
  intro hcl
  have h2 := hcl hashZero.pyHash hashZero.backend "a" "bb" (by decide)
  have hP : (⟨hashZero.pyHash, hashZero.backend⟩ : Params) = hashZero := rfl
  rw [hP] at h2
  have h3 : (genEmbedding hashZero
      ((genEmbedding hashZero emptyState "bb").2) "a").1 = [2] := by
    have e1 : "bb".length = 2 := rfl
    norm_num [genEmbedding, emptyState, hashZero, e1]
  rw [h3] at h2
  have e2 : "a".length = 1 := rfl
  rw [show hashZero.backend "a" = [(1 : ℚ)] by norm_num [hashZero, e2]] at h2
  norm_num at h2

/-- Claim C4, amended. The cache is keyed by hash(text), not by the
text: whenever the hash does not collide on the two texts, embedding one
text leaves the result for the other text the freshly computed vector;
and on a cache hit, generate_embedding returns the cached vector with no
recomputation and no state change. -/
theorem cache_hash_keyed (P : Params) (t1 t2 t3 : String) (st : EngineState)
    (v : List ℚ) (hh : P.pyHash t1 ≠ P.pyHash t2)
    (hcv : st.cache (P.pyHash t3) = some v) :
    (genEmbedding P ((genEmbedding P emptyState t2).2) t1).1 = P.backend t1 ∧
    genEmbedding P st t3 = (v, st) := by
  constructor
  · simp only [genEmbedding, emptyState]
    simp [hh]
  · exact genEmbedding_hit hcv

/-- Witness for cache_hash_keyed: the length hash does not collide on
"a" and "bb", and a state whose cache holds the entry for "a" serves the
hit without recomputation. -/
theorem cache_hash_keyed_witness :
    hashLen.pyHash "a" ≠ hashLen.pyHash "bb" ∧
    ((genEmbedding hashLen emptyState "a").2).cache (hashLen.pyHash "a") =
      some ((genEmbedding hashLen emptyState "a").1) ∧
    ((genEmbedding hashLen ((genEmbedding hashLen emptyState "bb").2) "a").1 =
      hashLen.backend "a" ∧
     genEmbedding hashLen ((genEmbedding hashLen emptyState "a").2) "a" =
       ((genEmbedding hashLen emptyState "a").1,
        (genEmbedding hashLen emptyState "a").2)) := by
  have hh : hashLen.pyHash "a" ≠ hashLen.pyHash "bb" := by decide
  have hcv := genEmbedding_cache_after hashLen emptyState "a"
  exact ⟨hh, hcv, cache_hash_keyed hashLen "a" "bb" "a" _ _ hh hcv⟩

/-- Claim C5, counterexample. The claim requires that two candidates
whose scores are equal within 1e-9 keep their original relative order.
In this concrete search the two scores are 0 and 1/sqrt(1 + 10^18),
whose real cosine values differ by less than 1e-9, yet the sort orders
candidate B (presented second) before candidate A, because CPython sorts
by the exact float values and only exactly equal keys keep their
original order. -/
theorem epsilon_tie_break_claim_false :
    stC5.ids = ["A", "B"] ∧
    (search hashZero stC5 qC5).1.map (fun r => (r.id, r.score)) =
      [("B", cosineSim [1, 0] embB5), ("A", cosineSim [1, 0] embA5)] ∧
    |SimScore.cosVal (cosineSim [1, 0] embA5) -
        SimScore.cosVal (cosineSim [1, 0] embB5)| < 1 / 1000000000 := by
  have hA : cosineSim [(1 : ℚ), 0] embA5 = SimScore.val 0 := by
    norm_num [cosineSim, sumsq, dotp, embA5]
  have hB : cosineSim [(1 : ℚ), 0] embB5 =
      SimScore.val (1 / 1000000000000000001) := by
    norm_num [cosineSim, sumsq, dotp, embB5]
  refine ⟨rfl, ?_, ?_⟩
  · rw [search_fst_eq]
    norm_num [scoredList, queryVec, processCandidate, takeK,
      sortDesc, insertDesc, cosineSim, sumsq, dotp, rejectedByFilter, splitTags,
      stC5, storeC5, recA5, recB5, embA5, embB5, qC5, hashZero, scoreLt,
      List.filterMap_cons]
  · rw [hA, hB]
    simp only [SimScore.cosVal]
    rw [if_pos (by norm_num), if_pos (by norm_num)]
    rw [show (((0 : ℚ) : ℝ)) = 0 by norm_num, Real.sqrt_zero, zero_sub, abs_neg,
      abs_of_nonneg (Real.sqrt_nonneg _)]
    have hlt : (((1 / 1000000000000000001 : ℚ) : ℝ)) < (1 / 1000000000) ^ 2 := by
      norm_num
    exact (Real.sqrt_lt' (by norm_num)).mpr hlt

/-- Claim C5, amended. For positive k the search returns at most k
results; when every scored candidate has a well-defined (non-NaN) score
the returned list is sorted by score descending; and candidates whose
scores are exactly equal floats keep, in the ranked list, the relative
order in which they were presented to the sort (CPython sorting is
stable); equality merely within a 1e-9 tolerance is not preserved, see
the counterexample. -/
theorem rank_sorted_truncated_stable (P : Params) (st : EngineState)
    (q : SearchQuery) :
    (0 < q.k → (search P st q).1.length ≤ q.k.toNat) ∧
    ((∀ r ∈ scoredList P st q, r.score ≠ SimScore.nan) →
      (search P st q).1.Pairwise (fun a b => scoreLt a.score b.score = false)) ∧
    (∀ x y : SearchResult, List.Sublist [x, y] (scoredList P st q) →
      x.score = y.score → x.score ≠ SimScore.nan →
      List.Sublist [x, y] (sortDesc (scoredList P st q))) := by
  refine ⟨?_, ?_, ?_⟩
  · intro hk
    rw [search_fst_eq, length_takeK, if_pos (le_of_lt hk)]
    exact min_le_left _ _
  · intro h
    rw [search_fst_eq]
    exact (pairwise_sortDesc h).sublist (takeK_sublist _ _)
  · intro x y hsub hs _hnn
    exact sortDesc_stable hsub hs

/-- Witness for rank_sorted_truncated_stable on two candidates with
exactly equal scores. -/
theorem rank_sorted_truncated_stable_witness :
    (0 : Int) < qK5.k ∧
    (∀ r ∈ scoredList hashZero stTwoTech qK5, r.score ≠ SimScore.nan) ∧
    List.Sublist [resTieA, resTieB] (scoredList hashZero stTwoTech qK5) ∧
    resTieA.score = resTieB.score ∧ resTieA.score ≠ SimScore.nan ∧
    ((search hashZero stTwoTech qK5).1.length ≤ qK5.k.toNat ∧
     (search hashZero stTwoTech qK5).1.Pairwise
       (fun a b => scoreLt a.score b.score = false) ∧
     List.Sublist [resTieA, resTieB]
       (sortDesc (scoredList hashZero stTwoTech qK5))) := by
  have hBA : ("B" : String) ≠ "A" := by decide
  have hscored : scoredList hashZero stTwoTech qK5 = [resTieA, resTieB] := by
    norm_num [scoredList, queryVec, processCandidate, cosineSim, sumsq, dotp,
      rejectedByFilter, splitTags, stTwoTech, storeTwoTech, recTechA, recTechB, qK5,
      resTieA, resTieB, List.filterMap_cons, hBA]
  have hnn : ∀ r ∈ scoredList hashZero stTwoTech qK5, r.score ≠ SimScore.nan := by
    rw [hscored]
    intro r hr
    rcases List.mem_cons.1 hr with rfl | hr2
    · simp [resTieA]
    · rcases List.mem_cons.1 hr2 with rfl | hr3
      · simp [resTieB]
      · cases hr3
  have hsub : List.Sublist [resTieA, resTieB] (scoredList hashZero stTwoTech qK5) := by
    rw [hscored]
  obtain ⟨h1, h2, h3⟩ := rank_sorted_truncated_stable hashZero stTwoTech qK5
  exact ⟨by norm_num [qK5], hnn, hsub, rfl, by simp [resTieA],
    h1 (by norm_num [qK5]), h2 hnn, h3 resTieA resTieB hsub rfl (by simp [resTieA])⟩

/-- Claim C6. With a non-empty category filter, every returned result
has category exactly equal to the filter string (the comparison is
Python string inequality, an exact match), and a filter matching no
stored candidate category yields an empty result. -/
theorem filter_exact_match (P : Params) (st : EngineState) (q : SearchQuery)
    (f : String) (hf : q.categoryFilter = some f) (hne : f ≠ "") :
    (∀ r ∈ (search P st q).1, r.category = f) ∧
    ((∀ cid rec, st.store cid = some rec → rec.category ≠ f) →
      (search P st q).1 = []) := by
  constructor
  · intro r hr
    rw [search_fst_eq] at hr
    have hr2 : r ∈ sortDesc (scoredList P st q) :=
      (takeK_sublist q.k _).subset hr
    have hr3 : r ∈ scoredList P st q := mem_sortDesc.1 hr2
    rcases List.mem_filterMap.1 hr3 with ⟨cid, _, hpc⟩
    rw [hf] at hpc
    exact processCandidate_some_category hne hpc
  · intro hnone
    rw [search_fst_eq]
    have hsc : scoredList P st q = [] := by
      rw [scoredList, List.filterMap_eq_nil_iff]
      intro cid _
      rcases h1 : st.store cid with _ | rec
      · exact processCandidate_of_bad (Or.inl h1) _ _
      · rcases h2 : rec.embedding with _ | e
        · exact processCandidate_of_bad (Or.inr ⟨rec, h1, Or.inl h2⟩) _ _
        · by_cases he : e = []
          · subst he
            exact processCandidate_of_bad (Or.inr ⟨rec, h1, Or.inr h2⟩) _ _
          · have hcat := hnone cid rec h1
            have hrej : rejectedByFilter q.categoryFilter rec.category = true := by
              rw [hf]
              simp [rejectedByFilter, hne, hcat]
            simp [processCandidate, h1, h2, he, hrej]
    rw [hsc]
    simp [sortDesc, takeK_nil]

/-- Witness for filter_exact_match: a "design" filter over two "tech"
records returns nothing, and the membership conjunct holds vacuously. -/
theorem filter_exact_match_witness :
    qDesign.categoryFilter = some "design" ∧ ("design" : String) ≠ "" ∧
    (∀ cid rec, stTwoTech.store cid = some rec → rec.category ≠ "design") ∧
    ((∀ r ∈ (search hashZero stTwoTech qDesign).1, r.category = "design") ∧
     (search hashZero stTwoTech qDesign).1 = []) := by
  have hnone : ∀ cid rec, stTwoTech.store cid = some rec →
      rec.category ≠ "design" := by
    intro cid rec h
    by_cases hA : cid = "A"
    · subst hA
      rw [show stTwoTech.store "A" = some recTechA from rfl] at h
      injection h with h
      rw [← h]
      decide
    · by_cases hB : cid = "B"
      · subst hB
        rw [show stTwoTech.store "B" = some recTechB from rfl] at h
        injection h with h
        rw [← h]
        decide
      · rw [show stTwoTech.store cid = if cid = "A" then some recTechA
            else if cid = "B" then some recTechB else none from rfl,
          if_neg hA, if_neg hB] at h
        cases h
  obtain ⟨h1, h2⟩ := filter_exact_match hashZero stTwoTech qDesign "design" rfl
    (by decide)
  exact ⟨rfl, by decide, hnone, h1, h2 hnone⟩

theorem queryVec_congr (P : Params) (q : SearchQuery) (st st' : EngineState)
    (h : st.cache = st'.cache) : queryVec P st q = queryVec P st' q := by
  rcases hv : q.vector with _ | v
  · simp only [queryVec, hv]
    rcases hc : st.cache (P.pyHash q.text) with _ | w
    · have hc' : st'.cache (P.pyHash q.text) = none := by rw [← h]; exact hc
      simp [genEmbedding, hc, hc']
    · have hc' : st'.cache (P.pyHash q.text) = some w := by rw [← h]; exact hc
      simp [genEmbedding, hc, hc']
  · simp [queryVec, hv]

/-- Claim C9, amended. Search never surfaces an error to its caller:
with no indexed records it returns an empty list, and a candidate the
loop cannot process (missing hash, unparsable embedding field, or an
embedding that parses to an empty list) is skipped without affecting
the rest of the search. A failed similarity computation, however, does
not exclude a candidate: cosine_similarity catches its own exception
and returns 0.0, so the candidate stays in the results with that
fallback score (see similarity_error_candidate_included), and the
search cannot abort on it because the scoring is total. -/
theorem search_skips_bad (P : Params) (st : EngineState) (q : SearchQuery)
    (xs ys : List String) (bId : String) (hbad : badStored st.store bId) :
    (st.ids = [] → (search P st q).1 = []) ∧
    (search P { st with ids := xs ++ bId :: ys } q).1 =
      (search P { st with ids := xs ++ ys } q).1 := by
  constructor
  · intro h
    simp only [search]
    rw [if_pos (by rw [stateAfterQuery_ids]; exact h)]
  · rw [search_fst_eq, search_fst_eq]
    simp only [scoredList]
    rw [List.filterMap_append, List.filterMap_append,
      List.filterMap_cons_none (processCandidate_of_bad hbad _ _),
      queryVec_congr P q { st with ids := xs ++ bId :: ys }
        { st with ids := xs ++ ys } rfl]

/-- Witness for search_skips_bad: a candidate with an unparsable
embedding field between two good candidates does not change the result,
and the empty state yields an empty result. -/
theorem search_skips_bad_witness :
    badStored stBase.store "X" ∧ stBase.ids = [] ∧
    ((search hashZero stBase qK5).1 = [] ∧
     (search hashZero { stBase with ids := ["A"] ++ "X" :: ["B"] } qK5).1 =
       (search hashZero { stBase with ids := ["A"] ++ ["B"] } qK5).1) := by
  have hbad : badStored stBase.store "X" := Or.inr ⟨recBadX, rfl, Or.inl rfl⟩
  obtain ⟨h1, h2⟩ := search_skips_bad hashZero stBase qK5 ["A"] ["B"] "X" hbad
  exact ⟨hbad, rfl, h1 rfl, h2⟩

/-- Claim C10. A search whose category filter is the empty string
behaves exactly as a search with no filter at all: the empty string is
falsy in the guard, so no candidate is dropped by it, and the result
list and the final state coincide with the unfiltered ones. -/
theorem empty_filter_no_filtering (P : Params) (st : EngineState)
    (t : String) (v : Option (List ℚ)) (k : Int) :
    search P st ⟨t, v, k, some ""⟩ = search P st ⟨t, v, k, none⟩ := by
  have hpc : processCandidate st.store (queryVec P st ⟨t, v, k, none⟩) (some "") =
      processCandidate st.store (queryVec P st ⟨t, v, k, none⟩) none := by
    funext cid
    rcases h1 : st.store cid with _ | rec
    · simp [processCandidate, h1]
    · rcases h2 : rec.embedding with _ | e
      · simp [processCandidate, h1, h2]
      · by_cases he : e = []
        · simp [processCandidate, h1, h2, he]
        · simp [processCandidate, h1, h2, he, rejectedByFilter]
  have hq1 : stateAfterQuery P st ⟨t, v, k, some ""⟩ =
      stateAfterQuery P st ⟨t, v, k, none⟩ := rfl
  have hq2 : queryVec P st ⟨t, v, k, some ""⟩ =
      queryVec P st ⟨t, v, k, none⟩ := rfl
  have hsc : scoredList P st ⟨t, v, k, some ""⟩ =
      scoredList P st ⟨t, v, k, none⟩ := by
    simp only [scoredList]
    rw [hq2, hpc]
  simp only [search]
  rw [hq1, hsc]

theorem sortDesc_singleton (r : SearchResult) : sortDesc [r] = [r] := rfl

/-- Claim C7. Indexing content into an empty index without a supplied
embedding and then immediately searching with the same text that was
used as the embedding input ("title content") returns exactly that
record as the top result, with score exactly 1 (cosine of the query
vector with itself), provided the embedded vector has nonzero norm and
at least one result is requested. The query embedding is served from
the cache entry written while indexing, so both sides use the same
vector. -/
theorem index_then_search_round_trip (P : Params)
    (s0 : String → Option StoredRecord) (c0 : Int → Option (List ℚ))
    (cid : String) (c : ContentData) (now : Int) (k : Int)
    (hemb : c.embedding = none) (hk : 1 ≤ k)
    (hnz : sumsq (genEmbedding P ⟨[], s0, c0⟩ (c.title ++ " " ++ c.content)).1 ≠ 0) :
    ((search P (indexContent P now ⟨[], s0, c0⟩ cid c).2
        ⟨c.title ++ " " ++ c.content, none, k, none⟩).1.map
      (fun r => (r.id, r.score))) = [(cid, SimScore.val 1)] := by
  have hSc : (indexContent P now ⟨[], s0, c0⟩ cid c).2.cache =
      (genEmbedding P ⟨[], s0, c0⟩ (c.title ++ " " ++ c.content)).2.cache := by
    simp only [indexContent, hemb]
  have hids : (indexContent P now ⟨[], s0, c0⟩ cid c).2.ids = [cid] := by
    simp only [indexContent, hemb]
    simp [genEmbedding_ids]
  have hstore : (indexContent P now ⟨[], s0, c0⟩ cid c).2.store cid =
      some { title := c.title, content := c.content, category := c.category,
             tagsStr := String.intercalate "," c.tags, author := c.author,
             createdAt := c.createdAt.getD now,
             embedding := EmbJson.vec
               (genEmbedding P ⟨[], s0, c0⟩ (c.title ++ " " ++ c.content)).1 } := by
    simp only [indexContent, hemb]
    simp
  have hhit : (indexContent P now ⟨[], s0, c0⟩ cid c).2.cache
      (P.pyHash (c.title ++ " " ++ c.content)) =
      some ((genEmbedding P ⟨[], s0, c0⟩ (c.title ++ " " ++ c.content)).1) := by
    rw [hSc]
    exact genEmbedding_cache_after P ⟨[], s0, c0⟩ (c.title ++ " " ++ c.content)
  have hqv : queryVec P (indexContent P now ⟨[], s0, c0⟩ cid c).2
      ⟨c.title ++ " " ++ c.content, none, k, none⟩ =
      (genEmbedding P ⟨[], s0, c0⟩ (c.title ++ " " ++ c.content)).1 := by
    simp only [queryVec]
    rw [genEmbedding_hit hhit]
  have hvne : (genEmbedding P ⟨[], s0, c0⟩ (c.title ++ " " ++ c.content)).1 ≠ [] := by
    intro h
    apply hnz
    rw [h]
    rfl
  have hsc : scoredList P (indexContent P now ⟨[], s0, c0⟩ cid c).2
      ⟨c.title ++ " " ++ c.content, none, k, none⟩ =
      [{ id := cid, title := c.title, content := c.content,
         category := c.category,
         tags := splitTags (String.intercalate "," c.tags), author := c.author,
         score := SimScore.val 1, createdAt := c.createdAt.getD now }] := by
    simp only [scoredList]
    rw [hids, hqv]
    simp [List.filterMap_cons, processCandidate, hstore, hvne,
      cosineSim_self hnz, rejectedByFilter]
  rw [search_fst_eq, hsc, sortDesc_singleton, takeK_all (by simp; omega)]
  simp

/-- Witness for index_then_search_round_trip at a concrete input. -/
theorem index_then_search_round_trip_witness :
    cdNoEmb.embedding = none ∧ (1 : Int) ≤ 1 ∧
    sumsq (genEmbedding hashZero
      (⟨[], stBase.store, fun _ => none⟩ : EngineState)
      (cdNoEmb.title ++ " " ++ cdNoEmb.content)).1 ≠ 0 ∧
    ((search hashZero (indexContent hashZero 0
        (⟨[], stBase.store, fun _ => none⟩ : EngineState) "a" cdNoEmb).2
        ⟨cdNoEmb.title ++ " " ++ cdNoEmb.content, none, 1, none⟩).1.map
      (fun r => (r.id, r.score))) = [("a", SimScore.val 1)] := by
  have hnz : sumsq (genEmbedding hashZero
      (⟨[], stBase.store, fun _ => none⟩ : EngineState)
      (cdNoEmb.title ++ " " ++ cdNoEmb.content)).1 ≠ 0 := by
    have h1 : "hello".length = 5 := rfl
    have h2 : " ".length = 1 := rfl
    have h3 : "world".length = 5 := rfl
    norm_num [genEmbedding, hashZero, cdNoEmb, sumsq, h1, h2, h3]
  exact ⟨rfl, le_refl 1, hnz,
    index_then_search_round_trip hashZero stBase.store (fun _ => none) "a" cdNoEmb
      0 1 rfl (le_refl 1) hnz⟩

/-- Claim C9, counterexample. The claim says a failure while computing
the similarity of a single candidate excludes that candidate from the
results. It does not: cosine_similarity catches its own exception and
returns 0.0 (lines 112-113), so when the caller supplies a query vector
[1, 0] whose length mismatches the stored length-1 embeddings (np.dot
raises ValueError on every candidate), both candidates are included in
the results with the fallback score 0.0 instead of being excluded. -/
theorem similarity_error_candidate_included :
    qMismatch.vector = some [1, 0] ∧
    stTwoTech.store "A" = some recTechA ∧
    recTechA.embedding = EmbJson.vec [1] ∧
    stTwoTech.store "B" = some recTechB ∧
    recTechB.embedding = EmbJson.vec [1] ∧
    (search hashZero stTwoTech qMismatch).1.map (fun r => (r.id, r.score)) =
      [("A", SimScore.val 0), ("B", SimScore.val 0)] := by
  refine ⟨rfl, rfl, rfl, rfl, rfl, ?_⟩
  have hBA : ("B" : String) ≠ "A" := by decide
  rw [search_fst_eq]
  norm_num [scoredList, queryVec, processCandidate, takeK,
    sortDesc, insertDesc, cosineSim, sumsq, dotp, rejectedByFilter, splitTags,
    stTwoTech, storeTwoTech, recTechA, recTechB, qMismatch, hashZero, scoreLt,
    List.filterMap_cons, hBA]
